import Mathlib

/-!
Shallow embedding of the Scheme interpreter core (src/parser.cpp,
src/evaluation.cpp, src/main.cpp): the syntax model, the expression model,
the runtime value model, the syntax-to-expression parser and the
fuel-indexed expression evaluator, together with theorems settling the
frozen claims about it.

Machine `int` values are modelled as unbounded `Int`; the one place the
source itself reasons about the machine width (`Expt::evalRator`'s widened
accumulator and `INT_MAX`/`INT_MIN` checks) keeps those explicit bounds.
Truncated C++ `/` and `%` are `Int.tdiv` and `Int.tmod`.
-/

namespace Scheme

/-- The `ExprType` enumeration (Def.hpp is not under src/; the constructors
here are the ones parser.cpp dispatches on). -/
inductive ExprType where
  | E_PLUS | E_MINUS | E_MUL | E_DIV | E_MODULO | E_EXPT
  | E_LT | E_LE | E_EQ | E_GE | E_GT
  | E_AND | E_OR | E_NOT
  | E_EQQ | E_BOOLQ | E_INTQ | E_NULLQ | E_PAIRQ | E_PROCQ | E_SYMBOLQ
  | E_STRINGQ | E_LISTQ
  | E_CONS | E_CAR | E_CDR | E_SETCAR | E_SETCDR | E_LIST
  | E_DISPLAY | E_VOID | E_EXIT
  | E_QUOTE | E_BEGIN | E_IF | E_COND | E_LAMBDA | E_DEFINE | E_LET
  | E_LETREC | E_SET
  deriving DecidableEq

/-- The reader's syntax tree (syntax.hpp variants, as consumed by
parser.cpp and `syntaxToValue`). -/
inductive Syntax where
  | Number (n : Int)
  | RationalSyntax (numerator denominator : Int)
  | StringSyntax (s : String)
  | SymbolSyntax (s : String)
  | TrueSyntax
  | FalseSyntax
  | List (stxs : List Syntax)

/-- The fixed-arity one-operand primitives (subclasses of `Unary` in
expr.hpp whose `evalRator` evaluation.cpp implements). -/
inductive UnaryOp where
  | Not | Car | Cdr | IsBoolean | IsFixnum | IsNull | IsPair
  | IsProcedure | IsSymbol | IsString | IsList | Display
  deriving DecidableEq

/-- The fixed-arity two-operand primitives (subclasses of `Binary`). -/
inductive BinaryOp where
  | Plus | Minus | Mult | Div | Modulo | Expt
  | Less | LessEq | Equal | GreaterEq | Greater
  | Cons | SetCar | SetCdr | IsEq
  deriving DecidableEq

/-- The variable-arity primitives that go through `Variadic::eval`
(evaluate all operands, then `evalRator` on the value list). `AndVar` and
`OrVar` are not here: they override `eval` itself to short-circuit. -/
inductive VariadicOp where
  | PlusVar | MinusVar | MultVar | DivVar
  | LessVar | LessEqVar | EqualVar | GreaterEqVar | GreaterVar
  | ListFunc
  deriving DecidableEq

/-- The parser's output: the expression tree of expr.hpp, one constructor
per node class evaluated in evaluation.cpp. -/
inductive Expr where
  | Fixnum (n : Int)
  | RationalNum (numerator denominator : Int)
  | StringExpr (s : String)
  | True
  | False
  | MakeVoid
  | Exit
  | Unary (op : UnaryOp) (rand : Expr)
  | Binary (op : BinaryOp) (rand1 rand2 : Expr)
  | Variadic (op : VariadicOp) (rands : List Expr)
  | AndVar (rands : List Expr)
  | OrVar (rands : List Expr)
  | Var (x : String)
  | Apply (rator : Expr) (rand : List Expr)
  | Quote (s : Syntax)
  | If (cond conseq alter : Expr)
  | Cond (clauses : List (List Expr))
  | Lambda (x : List String) (e : Expr)
  | Define (var : String) (e : Expr)
  | Let (bind : List (String × Expr)) (body : Expr)
  | Letrec (bind : List (String × Expr)) (body : Expr)
  | Set (var : String) (e : Expr)
  | Begin (es : List Expr)

/-- Runtime values (value.hpp variants). A `ProcedureV` carries its
parameter names, body expression and captured environment chain. Pair
cells are modelled structurally: nothing in the settled claims depends on
`set-car!`/`set-cdr!` cell aliasing, which a pure tree cannot carry. -/
inductive Value where
  | IntegerV (n : Int)
  | RationalV (numerator denominator : Int)
  | StringV (s : String)
  | SymbolV (s : String)
  | BooleanV (b : Bool)
  | NullV
  | PairV (car cdr : Value)
  | ProcedureV (parameters : List String) (e : Expr) (env : List (String × Value))
  | VoidV
  | TerminateV

/-- The environment chain: innermost binding first. -/
abbrev Assoc := List (String × Value)

/-- Modelled from the spec: `find` (Def.hpp, not under src/) searches the
chain innermost-to-outermost and the first match wins (spec section 3);
absence is the null `Value`, here `none`. -/
def find (x : String) : Assoc → Option Value
  | [] => none
  | (y, v) :: rest => if y = x then some v else find x rest

/-- Modelled from the spec: `extend` (not under src/) is purely additive,
producing a new innermost frame pointing at the previous chain
(spec section 3). -/
def extend (x : String) (v : Value) (e : Assoc) : Assoc :=
  (x, v) :: e

/-- Modelled from the spec: `modify` (not under src/) searches the chain
for an existing binding and updates the cell found in place; `set!` must
fail if the name is unbound (spec section 4.2). -/
def modify (x : String) (v : Value) : Assoc → Except String Assoc
  | [] => .error ("Undefined variable: " ++ x)
  | (y, w) :: rest =>
    if y = x then .ok ((y, v) :: rest)
    else (modify x v rest).map fun r => (y, w) :: r

/-- Lookup in the primitive / reserved-word tables (`std::map` find). -/
def tableLookup (x : String) : List (String × ExprType) → Option ExprType
  | [] => none
  | (y, t) :: rest => if y = x then some t else tableLookup x rest

/-- Modelled from the spec: the `primitives` map (declared `extern` in the
src files; its definition is not under src/), with the operator names and
dispatch tags of spec section 6's table. -/
def primitives : List (String × ExprType) :=
  [("+", .E_PLUS), ("-", .E_MINUS), ("*", .E_MUL), ("/", .E_DIV),
   ("modulo", .E_MODULO), ("expt", .E_EXPT),
   ("<", .E_LT), ("<=", .E_LE), ("=", .E_EQ), (">=", .E_GE), (">", .E_GT),
   ("and", .E_AND), ("or", .E_OR), ("not", .E_NOT),
   ("eq?", .E_EQQ), ("boolean?", .E_BOOLQ), ("number?", .E_INTQ),
   ("null?", .E_NULLQ), ("pair?", .E_PAIRQ), ("procedure?", .E_PROCQ),
   ("symbol?", .E_SYMBOLQ), ("string?", .E_STRINGQ), ("list?", .E_LISTQ),
   ("cons", .E_CONS), ("car", .E_CAR), ("cdr", .E_CDR),
   ("set-car!", .E_SETCAR), ("set-cdr!", .E_SETCDR), ("list", .E_LIST),
   ("display", .E_DISPLAY), ("void", .E_VOID), ("exit", .E_EXIT)]

/-- Modelled from the spec: the `reserved_words` map (declared `extern`;
not under src/), per spec section 6. -/
def reserved_words : List (String × ExprType) :=
  [("quote", .E_QUOTE), ("begin", .E_BEGIN), ("if", .E_IF),
   ("cond", .E_COND), ("lambda", .E_LAMBDA), ("define", .E_DEFINE),
   ("let", .E_LET), ("letrec", .E_LETREC), ("set!", .E_SET)]

/-- `addValues` (evaluation.cpp): Integer and Rational addition; the mixed
cases multiply only the rational's denominator. -/
def addValues : Value → Value → Except String Value
  | .IntegerV n1, .IntegerV n2 => .ok (.IntegerV (n1 + n2))
  | .RationalV num1 den1, .RationalV num2 den2 =>
    .ok (.RationalV (num1 * den2 + num2 * den1) (den1 * den2))
  | .IntegerV n1, .RationalV num2 den2 =>
    .ok (.RationalV (n1 * den2 + num2) den2)
  | .RationalV num1 den1, .IntegerV n2 =>
    .ok (.RationalV (num1 + n2 * den1) den1)
  | _, _ => .error "Cannot add non-numeric values"

/-- `subtractValues` (evaluation.cpp). -/
def subtractValues : Value → Value → Except String Value
  | .IntegerV n1, .IntegerV n2 => .ok (.IntegerV (n1 - n2))
  | .RationalV num1 den1, .RationalV num2 den2 =>
    .ok (.RationalV (num1 * den2 - num2 * den1) (den1 * den2))
  | .IntegerV n1, .RationalV num2 den2 =>
    .ok (.RationalV (n1 * den2 - num2) den2)
  | .RationalV num1 den1, .IntegerV n2 =>
    .ok (.RationalV (num1 - n2 * den1) den1)
  | _, _ => .error "Cannot subtract non-numeric values"

/-- `multiplyValues` (evaluation.cpp). -/
def multiplyValues : Value → Value → Except String Value
  | .IntegerV n1, .IntegerV n2 => .ok (.IntegerV (n1 * n2))
  | .RationalV num1 den1, .RationalV num2 den2 =>
    .ok (.RationalV (num1 * num2) (den1 * den2))
  | .IntegerV n1, .RationalV num2 den2 =>
    .ok (.RationalV (n1 * num2) den2)
  | .RationalV num1 den1, .IntegerV n2 =>
    .ok (.RationalV (num1 * n2) den1)
  | _, _ => .error "Cannot multiply non-numeric values"

/-- `divideValues` (evaluation.cpp): integer division collapses back to
Integer exactly when the C++ `%` remainder is zero; a zero integer divisor
or zero-numerator rational divisor is a RuntimeError. -/
def divideValues : Value → Value → Except String Value
  | .IntegerV n1, .IntegerV n2 =>
    if n2 = 0 then .error "Division by zero"
    else if n1.tmod n2 = 0 then .ok (.IntegerV (n1.tdiv n2))
    else .ok (.RationalV n1 n2)
  | .RationalV num1 den1, .RationalV num2 den2 =>
    if num2 = 0 then .error "Division by zero"
    else .ok (.RationalV (num1 * den2) (den1 * num2))
  | .IntegerV n1, .RationalV num2 den2 =>
    if num2 = 0 then .error "Division by zero"
    else .ok (.RationalV (n1 * den2) num2)
  | .RationalV num1 den1, .IntegerV n2 =>
    if n2 = 0 then .error "Division by zero"
    else .ok (.RationalV num1 (den1 * n2))
  | _, _ => .error "Cannot divide non-numeric values"

/-- `INT_MAX` of the host machine's 32-bit `int` (climits). -/
def INT_MAX : Int := 2147483647

/-- `INT_MIN` of the host machine's 32-bit `int` (climits). -/
def INT_MIN : Int := -2147483648

/-- The square-and-multiply loop of `Expt::evalRator` (evaluation.cpp):
the widened `long long` accumulator is an unbounded `Int` here (the C++
64-bit accumulator never overflows, since both factors stay within the
checked 32-bit range), with the source's explicit `INT_MAX`/`INT_MIN`
overflow checks. -/
def exptLoop (result b : Int) (exp : Nat) : Except String Int :=
  if 0 < exp then
    let result' := if exp % 2 = 1 then result * b else result
    if exp % 2 = 1 ∧ (INT_MAX < result' ∨ result' < INT_MIN) then
      .error "Integer overflow in expt"
    else
      let b' := b * b
      if (INT_MAX < b' ∨ b' < INT_MIN) ∧ 1 < exp then
        .error "Integer overflow in expt"
      else exptLoop result' b' (exp / 2)
  else .ok result
termination_by exp
decreasing_by exact Nat.div_lt_self (by omega) (by omega)

/-- `compareNumericValues` (evaluation.cpp): the three-way comparison via
cross-multiplied numerators, -1 / 0 / 1. -/
def compareNumericValues : Value → Value → Except String Int
  | .IntegerV n1, .IntegerV n2 =>
    .ok (if n1 < n2 then -1 else if n2 < n1 then 1 else 0)
  | .RationalV num1 den1, .IntegerV n2 =>
    .ok (if num1 < n2 * den1 then -1 else if n2 * den1 < num1 then 1 else 0)
  | .IntegerV n1, .RationalV num2 den2 =>
    .ok (if n1 * den2 < num2 then -1 else if num2 < n1 * den2 then 1 else 0)
  | .RationalV num1 den1, .RationalV num2 den2 =>
    .ok (if num1 * den2 < num2 * den1 then -1
         else if num2 * den1 < num1 * den2 then 1 else 0)
  | _, _ => .error "Wrong typename in numeric comparison"

/-- The `IsList::evalRator` cdr-chain walk. Values here are finite trees,
so the walk is structural (the C++ walk does not terminate on a cyclic
pair chain built by `set-cdr!`; cycles are not constructible in this
embedding). -/
def listWalk : Value → Bool
  | .NullV => true
  | .PairV _ cdr => listWalk cdr
  | _ => false

/-- Modelled from the spec: the printer collaborator (`Value::show`) is
out-of-scope I/O glue with an unspecified exact rendering; any consistent
rendering suffices. Claims do not depend on its text. -/
def showValue : Value → String
  | .IntegerV n => toString n
  | .RationalV num den => toString num ++ "/" ++ toString den
  | .StringV s => "\x22" ++ s ++ "\x22"
  | .SymbolV s => s
  | .BooleanV b => if b then "#t" else "#f"
  | .NullV => "()"
  | .PairV car cdr => "(" ++ showValue car ++ " . " ++ showValue cdr ++ ")"
  | .ProcedureV _ _ _ => "#<procedure>"
  | .VoidV => "#<void>"
  | .TerminateV => "#<terminate>"

/-- The `evalRator` of each `Unary` subclass (evaluation.cpp), except that
`Display`'s write to standard output is performed by the evaluator, which
owns the output trace; here `Display` contributes its `VoidV` result. -/
def evalUnaryOp : UnaryOp → Value → Except String Value
  | .Not, rand =>
    match rand with
    | .BooleanV b => .ok (.BooleanV (!b))
    | _ => .ok (.BooleanV false)
  | .Car, rand =>
    match rand with
    | .PairV car _ => .ok car
    | _ => .error "car requires a pair"
  | .Cdr, rand =>
    match rand with
    | .PairV _ cdr => .ok cdr
    | _ => .error "cdr requires a pair"
  | .IsBoolean, rand =>
    .ok (.BooleanV (match rand with | .BooleanV _ => true | _ => false))
  | .IsFixnum, rand =>
    .ok (.BooleanV (match rand with | .IntegerV _ => true | _ => false))
  | .IsNull, rand =>
    .ok (.BooleanV (match rand with | .NullV => true | _ => false))
  | .IsPair, rand =>
    .ok (.BooleanV (match rand with | .PairV _ _ => true | _ => false))
  | .IsProcedure, rand =>
    .ok (.BooleanV (match rand with | .ProcedureV _ _ _ => true | _ => false))
  | .IsSymbol, rand =>
    .ok (.BooleanV (match rand with | .SymbolV _ => true | _ => false))
  | .IsString, rand =>
    .ok (.BooleanV (match rand with | .StringV _ => true | _ => false))
  | .IsList, rand => .ok (.BooleanV (listWalk rand))
  | .Display, _ => .ok .VoidV

/-- The `evalRator` of each `Binary` subclass (evaluation.cpp).
`set-car!`/`set-cdr!` perform the source's pair type check and return
`VoidV`; the in-place cell mutation, and `eq?`'s pointer-identity branch
for pairs, procedures and strings, are storage-identity behaviours a pure
tree does not carry (no settled claim depends on them). -/
def evalBinaryOp : BinaryOp → Value → Value → Except String Value
  | .Plus, rand1, rand2 => addValues rand1 rand2
  | .Minus, rand1, rand2 => subtractValues rand1 rand2
  | .Mult, rand1, rand2 => multiplyValues rand1 rand2
  | .Div, rand1, rand2 => divideValues rand1 rand2
  | .Modulo, rand1, rand2 =>
    match rand1, rand2 with
    | .IntegerV dividend, .IntegerV divisor =>
      if divisor = 0 then .error "Division by zero"
      else .ok (.IntegerV (dividend.tmod divisor))
    | _, _ => .error "modulo is only defined for integers"
  | .Expt, rand1, rand2 =>
    match rand1, rand2 with
    | .IntegerV base, .IntegerV exponent =>
      if exponent < 0 then .error "Negative exponent not supported for integers"
      else if base = 0 ∧ exponent = 0 then .error "0^0 is undefined"
      else (exptLoop 1 base exponent.toNat).map .IntegerV
    | _, _ => .error "Wrong typename"
  | .Less, rand1, rand2 =>
    (compareNumericValues rand1 rand2).map fun c => .BooleanV (c < 0)
  | .LessEq, rand1, rand2 =>
    (compareNumericValues rand1 rand2).map fun c => .BooleanV (c ≤ 0)
  | .Equal, rand1, rand2 =>
    (compareNumericValues rand1 rand2).map fun c => .BooleanV (c = 0)
  | .GreaterEq, rand1, rand2 =>
    (compareNumericValues rand1 rand2).map fun c => .BooleanV (0 ≤ c)
  | .Greater, rand1, rand2 =>
    (compareNumericValues rand1 rand2).map fun c => .BooleanV (0 < c)
  | .Cons, rand1, rand2 => .ok (.PairV rand1 rand2)
  | .SetCar, rand1, _ =>
    match rand1 with
    | .PairV _ _ => .ok .VoidV
    | _ => .error "set-car! requires a pair"
  | .SetCdr, rand1, _ =>
    match rand1 with
    | .PairV _ _ => .ok .VoidV
    | _ => .error "set-cdr! requires a pair"
  | .IsEq, rand1, rand2 =>
    match rand1, rand2 with
    | .IntegerV n1, .IntegerV n2 => .ok (.BooleanV (n1 = n2))
    | .BooleanV b1, .BooleanV b2 => .ok (.BooleanV (b1 = b2))
    | .SymbolV s1, .SymbolV s2 => .ok (.BooleanV (s1 = s2))
    | .NullV, .NullV => .ok (.BooleanV true)
    | .VoidV, .VoidV => .ok (.BooleanV true)
    | _, _ => .ok (.BooleanV false)

/-- The folding loops shared by the variadic arithmetic `evalRator`s. -/
def foldValues (f : Value → Value → Except String Value)
    (acc : Value) : List Value → Except String Value
  | [] => .ok acc
  | v :: rest => do foldValues f (← f acc v) rest

/-- The adjacent-pair loop shared by the variadic comparison `evalRator`s:
`fail` is each operator's failing three-way-comparison test. -/
def chainCompare (fail : Int → Bool) : List Value → Except String Value
  | a :: b :: rest => do
    let c ← compareNumericValues a b
    if fail c then .ok (.BooleanV false) else chainCompare fail (b :: rest)
  | _ => .ok (.BooleanV true)

/-- The `evalRator` of each `Variadic` subclass (evaluation.cpp): the
variadic arithmetic, comparison and `list` operators, re-validating the
minimum arity at eval time. -/
def evalVariadicOp : VariadicOp → List Value → Except String Value
  | .PlusVar, args =>
    match args with
    | [] => .ok (.IntegerV 0)
    | a :: rest => foldValues addValues a rest
  | .MinusVar, args =>
    match args with
    | [] => .error "- requires at least 1 argument"
    | [a] =>
      match a with
      | .IntegerV n => .ok (.IntegerV (-n))
      | .RationalV num den => .ok (.RationalV (-num) den)
      | _ => .error "Cannot negate non-numeric value"
    | a :: rest => foldValues subtractValues a rest
  | .MultVar, args =>
    match args with
    | [] => .ok (.IntegerV 1)
    | args => foldValues multiplyValues (.IntegerV 1) args
  | .DivVar, args =>
    match args with
    | [] => .error "/ requires at least 1 argument"
    | [a] =>
      match a with
      | .IntegerV n =>
        if n = 0 then .error "Division by zero" else .ok (.RationalV 1 n)
      | .RationalV num den =>
        if num = 0 then .error "Division by zero" else .ok (.RationalV den num)
      | _ => .error "Cannot compute reciprocal of non-numeric value"
    | a :: rest => foldValues divideValues a rest
  | .LessVar, args =>
    if args.length < 2 then .error "< requires at least 2 arguments"
    else chainCompare (fun c => 0 ≤ c) args
  | .LessEqVar, args =>
    if args.length < 2 then .error "<= requires at least 2 arguments"
    else chainCompare (fun c => 0 < c) args
  | .EqualVar, args =>
    if args.length < 2 then .error "= requires at least 2 arguments"
    else chainCompare (fun c => c ≠ 0) args
  | .GreaterEqVar, args =>
    if args.length < 2 then .error ">= requires at least 2 arguments"
    else chainCompare (fun c => c < 0) args
  | .GreaterVar, args =>
    if args.length < 2 then .error "> requires at least 2 arguments"
    else chainCompare (fun c => c ≤ 0) args
  | .ListFunc, args =>
    .ok (args.foldr (fun a acc => .PairV a acc) .NullV)

mutual

/-- `syntaxToValue` (evaluation.cpp): the structural Syntax-to-Value
conversion behind `quote` (the C++ takes the environment but never
consults it; its catch-all "Unknown syntax type" throw is unreachable over
the closed variant set). -/
def syntaxToValue : Syntax → Value
  | .Number n => .IntegerV n
  | .RationalSyntax num den => .RationalV num den
  | .StringSyntax s => .StringV s
  | .SymbolSyntax s => .SymbolV s
  | .TrueSyntax => .BooleanV true
  | .FalseSyntax => .BooleanV false
  | .List stxs => syntaxListToValue stxs

/-- The right-to-left pair-building loop of `syntaxToValue`'s List case. -/
def syntaxListToValue : List Syntax → Value
  | [] => .NullV
  | s :: rest => .PairV (syntaxToValue s) (syntaxListToValue rest)

end

/-- The per-parameter symbol extraction loops of `List::parse`'s lambda
and function-define cases (parser.cpp); `msg` is each loop's error text. -/
def paramNames (msg : String) : List Syntax → Except String (List String)
  | [] => .ok []
  | .SymbolSyntax s :: rest => (paramNames msg rest).map fun ps => s :: ps
  | _ :: _ => .error msg

/-- The primitive-operator dispatch of `List::parse` (parser.cpp): the
`+ - * / < <= = >= >` operators get a binary node at exactly two operands
and a variadic node otherwise; every other primitive has one fixed arity
checked here. -/
def primDispatch (op : String) (op_type : ExprType) (parameters : List Expr) :
    Except String Expr :=
  match op_type with
  | .E_PLUS =>
    match parameters with
    | [p1, p2] => .ok (.Binary .Plus p1 p2)
    | _ => .ok (.Variadic .PlusVar parameters)
  | .E_MINUS =>
    match parameters with
    | [p1, p2] => .ok (.Binary .Minus p1 p2)
    | _ => .ok (.Variadic .MinusVar parameters)
  | .E_MUL =>
    match parameters with
    | [p1, p2] => .ok (.Binary .Mult p1 p2)
    | _ => .ok (.Variadic .MultVar parameters)
  | .E_DIV =>
    match parameters with
    | [p1, p2] => .ok (.Binary .Div p1 p2)
    | _ => .ok (.Variadic .DivVar parameters)
  | .E_MODULO =>
    match parameters with
    | [p1, p2] => .ok (.Binary .Modulo p1 p2)
    | _ => .error "Wrong number of arguments for modulo"
  | .E_EXPT =>
    match parameters with
    | [p1, p2] => .ok (.Binary .Expt p1 p2)
    | _ => .error "Wrong number of arguments for expt"
  | .E_LIST => .ok (.Variadic .ListFunc parameters)
  | .E_LT =>
    match parameters with
    | [p1, p2] => .ok (.Binary .Less p1 p2)
    | _ => .ok (.Variadic .LessVar parameters)
  | .E_LE =>
    match parameters with
    | [p1, p2] => .ok (.Binary .LessEq p1 p2)
    | _ => .ok (.Variadic .LessEqVar parameters)
  | .E_EQ =>
    match parameters with
    | [p1, p2] => .ok (.Binary .Equal p1 p2)
    | _ => .ok (.Variadic .EqualVar parameters)
  | .E_GE =>
    match parameters with
    | [p1, p2] => .ok (.Binary .GreaterEq p1 p2)
    | _ => .ok (.Variadic .GreaterEqVar parameters)
  | .E_GT =>
    match parameters with
    | [p1, p2] => .ok (.Binary .Greater p1 p2)
    | _ => .ok (.Variadic .GreaterVar parameters)
  | .E_AND => .ok (.AndVar parameters)
  | .E_OR => .ok (.OrVar parameters)
  | .E_NOT =>
    match parameters with
    | [p1] => .ok (.Unary .Not p1)
    | _ => .error "Wrong number of arguments for not"
  | .E_EQQ =>
    match parameters with
    | [p1, p2] => .ok (.Binary .IsEq p1 p2)
    | _ => .error "Wrong number of arguments for eq?"
  | .E_BOOLQ =>
    match parameters with
    | [p1] => .ok (.Unary .IsBoolean p1)
    | _ => .error "Wrong number of arguments for boolean?"
  | .E_INTQ =>
    match parameters with
    | [p1] => .ok (.Unary .IsFixnum p1)
    | _ => .error "Wrong number of arguments for number?"
  | .E_NULLQ =>
    match parameters with
    | [p1] => .ok (.Unary .IsNull p1)
    | _ => .error "Wrong number of arguments for null?"
  | .E_PAIRQ =>
    match parameters with
    | [p1] => .ok (.Unary .IsPair p1)
    | _ => .error "Wrong number of arguments for pair?"
  | .E_PROCQ =>
    match parameters with
    | [p1] => .ok (.Unary .IsProcedure p1)
    | _ => .error "Wrong number of arguments for procedure?"
  | .E_SYMBOLQ =>
    match parameters with
    | [p1] => .ok (.Unary .IsSymbol p1)
    | _ => .error "Wrong number of arguments for symbol?"
  | .E_STRINGQ =>
    match parameters with
    | [p1] => .ok (.Unary .IsString p1)
    | _ => .error "Wrong number of arguments for string?"
  | .E_LISTQ =>
    match parameters with
    | [p1] => .ok (.Unary .IsList p1)
    | _ => .error "Wrong number of arguments for list?"
  | .E_CONS =>
    match parameters with
    | [p1, p2] => .ok (.Binary .Cons p1 p2)
    | _ => .error "Wrong number of arguments for cons"
  | .E_CAR =>
    match parameters with
    | [p1] => .ok (.Unary .Car p1)
    | _ => .error "Wrong number of arguments for car"
  | .E_CDR =>
    match parameters with
    | [p1] => .ok (.Unary .Cdr p1)
    | _ => .error "Wrong number of arguments for cdr"
  | .E_SETCAR =>
    match parameters with
    | [p1, p2] => .ok (.Binary .SetCar p1 p2)
    | _ => .error "Wrong number of arguments for set-car!"
  | .E_SETCDR =>
    match parameters with
    | [p1, p2] => .ok (.Binary .SetCdr p1 p2)
    | _ => .error "Wrong number of arguments for set-cdr!"
  | .E_DISPLAY =>
    match parameters with
    | [p1] => .ok (.Unary .Display p1)
    | _ => .error "Wrong number of arguments for display"
  | .E_VOID =>
    match parameters with
    | [] => .ok .MakeVoid
    | _ => .error "Wrong number of arguments for (void)"
  | .E_EXIT =>
    match parameters with
    | [] => .ok .Exit
    | _ => .error "Wrong number of arguments for (exit)"
  | _ => .error ("Unknown primitive: " ++ op)

/-- The type of the parser threaded through the loop helpers below, in
the same style as the evaluator's `EvalFn`: syntax and environment in,
expression (or ParseError message) out. -/
abbrev ParseFn := Syntax → Assoc → Except String Expr

/-- The operand-parsing loops of `List::parse`, over the parser `p` used
for each element. -/
def parseList (p : ParseFn) (stxs : List Syntax) (env : Assoc) :
    Except String (List Expr) :=
  match stxs with
  | [] => .ok []
  | s :: rest => do
    let e ← p s env
    let es ← parseList p rest env
    .ok (e :: es)

/-- The `cond`-clause loop of `List::parse`: each clause must itself be a
list, whose elements are all parsed as expressions. -/
def parseClauses (p : ParseFn) (stxs : List Syntax) (env : Assoc) :
    Except String (List (List Expr)) :=
  match stxs with
  | [] => .ok []
  | c :: rest =>
    match c with
    | .List clauseStxs => do
      let es ← parseList p clauseStxs env
      let cs ← parseClauses p rest env
      .ok (es :: cs)
    | _ => .error "Cond clause must be a list"

/-- The binding loop shared by `let` and `letrec` in `List::parse`: each
binding is a two-element list of a symbol and an expression parsed in the
surrounding environment. -/
def parseBindings (p : ParseFn) (stxs : List Syntax) (env : Assoc) :
    Except String (List (String × Expr)) :=
  match stxs with
  | [] => .ok []
  | b :: rest =>
    match b with
    | .List [.SymbolSyntax x, ex] => do
      let e ← p ex env
      let bs ← parseBindings p rest env
      .ok ((x, e) :: bs)
    | .List [_, _] => .error "Binding variable must be a symbol"
    | _ => .error "Each binding must be a list of 2 elements"

/-- The reserved-word dispatch of `List::parse` (parser.cpp); `rest` is
the list without its leading keyword, so the C++ `stxs.size()` checks
become length-plus-one patterns. Sub-forms go through the parser `p`. -/
def reservedParse (p : ParseFn) (op : String) (rw : ExprType)
    (rest : List Syntax) (env : Assoc) : Except String Expr :=
  match rw with
  | .E_QUOTE =>
    match rest with
    | [payload] => .ok (.Quote payload)
    | _ => .error "Wrong number of arguments for quote"
  | .E_BEGIN => do
    let es ← parseList p rest env
    .ok (.Begin es)
  | .E_IF =>
    match rest with
    | [c, t, f] => do
      let ce ← p c env
      let te ← p t env
      let fe ← p f env
      .ok (.If ce te fe)
    | _ => .error "Wrong number of arguments for if"
  | .E_COND => do
    let clauses ← parseClauses p rest env
    .ok (.Cond clauses)
  | .E_LAMBDA =>
    match rest with
    | [params, body] =>
      match params with
      | .List paramStxs => do
        let ps ← paramNames "Lambda parameters must be symbols" paramStxs
        let be ← p body env
        .ok (.Lambda ps be)
      | _ => .error "Lambda parameters must be a list"
    | _ => .error "Wrong number of arguments for lambda"
  | .E_DEFINE =>
    match rest with
    | [target, valStx] =>
      match target with
      | .SymbolSyntax name => do
        let ve ← p valStx env
        .ok (.Define name ve)
      | .List defStxs =>
        match defStxs with
        | [] => .error "Invalid define syntax"
        | fnStx :: paramStxs =>
          match fnStx with
          | .SymbolSyntax funcName => do
            let ps ← paramNames "Parameters must be symbols" paramStxs
            let be ← p valStx env
            .ok (.Define funcName (.Lambda ps be))
          | _ => .error "Function name must be a symbol"
      | _ => .error "Invalid define syntax"
    | _ => .error "Wrong number of arguments for define"
  | .E_LET =>
    match rest with
    | [bindingsStx, body] =>
      match bindingsStx with
      | .List bs => do
        let binds ← parseBindings p bs env
        let be ← p body env
        .ok (.Let binds be)
      | _ => .error "Let bindings must be a list"
    | _ => .error "Wrong number of arguments for let"
  | .E_LETREC =>
    match rest with
    | [bindingsStx, body] =>
      match bindingsStx with
      | .List bs => do
        let binds ← parseBindings p bs env
        let be ← p body env
        .ok (.Letrec binds be)
      | _ => .error "Letrec bindings must be a list"
    | _ => .error "Wrong number of arguments for letrec"
  | .E_SET =>
    match rest with
    | [target, valStx] =>
      match target with
      | .SymbolSyntax name => do
        let ve ← p valStx env
        .ok (.Set name ve)
      | _ => .error "Set! variable must be a symbol"
    | _ => .error "Wrong number of arguments for set!"
  | _ => .error ("Unknown reserved word: " ++ op)

/-- `List::parse` (parser.cpp): the empty list compiles to a quotation of
the empty list; otherwise the leading symbol is resolved environment
first, then the primitive table, then the reserved-word table, and an
unknown leading symbol falls through to an application node. A non-symbol
head is an application of the parsed head. Element forms go through the
parser `p`. -/
def listParse (p : ParseFn) (stxs : List Syntax) (env : Assoc) :
    Except String Expr :=
  match stxs with
  | [] => .ok (.Quote (.List []))
  | .SymbolSyntax op :: rest =>
    if (find op env).isSome then do
      let rand ← parseList p rest env
      .ok (.Apply (.Var op) rand)
    else
      match tableLookup op primitives with
      | some op_type => do
        let parameters ← parseList p rest env
        primDispatch op op_type parameters
      | none =>
        match tableLookup op reserved_words with
        | some rw => reservedParse p op rw rest env
        | none => do
          let rand ← parseList p rest env
          .ok (.Apply (.Var op) rand)
  | s0 :: rest => do
    let rand ← parseList p rest env
    let ratorE ← p s0 env
    .ok (.Apply ratorE rand)

/-- One step of `Syntax::parse` (parser.cpp): literal atoms compile to
literal nodes, a bare symbol to a `Var`, a list through `List::parse`,
whose recursive descent into sub-forms uses `p`. -/
def parseStep (p : ParseFn) : ParseFn := fun s env =>
  match s with
  | .Number n => .ok (.Fixnum n)
  | .RationalSyntax num den => .ok (.RationalNum num den)
  | .SymbolSyntax x => .ok (.Var x)
  | .StringSyntax str => .ok (.StringExpr str)
  | .TrueSyntax => .ok .True
  | .FalseSyntax => .ok .False
  | .List stxs => listParse p stxs env

/-- `Syntax::parse` (parser.cpp), fuel-indexed: the C++ recursion
descends a finite syntax tree and always terminates, so any fuel at
least the tree's depth gives the function it computes; running out of
fuel is a modelling artifact, reported as a ParseError that the C++
parser never raises. -/
def parse : Nat → ParseFn :=
  fun fuel =>
    Nat.rec (motive := fun _ => ParseFn)
      (fun _ _ => .error "parser out of fuel")
      (fun _ ih => parseStep ih)
      fuel

/-- `parse` at zero fuel refuses every form. -/
theorem parse_zero (s : Syntax) (env : Assoc) :
    parse 0 s env = .error "parser out of fuel" := rfl

/-- `parse` peels one step of fuel per node, as `Syntax::parse` makes
one call per node. -/
theorem parse_succ (fuel : Nat) : parse (fuel + 1) = parseStep (parse fuel) := rfl

/-- Evaluation outcome errors: a thrown `RuntimeError` message, or fuel
exhaustion (the modelling artifact standing for a still-running
evaluation; the C++ evaluator is an unbounded recursion). -/
inductive Err where
  | RE (msg : String)
  | OutOfFuel
  deriving DecidableEq

/-- The output trace: the strings `Display::evalRator` writes to standard
output, in order. -/
abbrev Output := List String

/-- The truth test used by `if`, `cond`, `and` and `or`: every value is
true except the Boolean false. -/
def isTrueValue : Value → Bool
  | .BooleanV b => b
  | _ => true

/-- The source's `v_type == V_BOOL && !b->b` test: true exactly for the
Boolean false value. -/
def isFalseValue : Value → Bool
  | .BooleanV false => true
  | _ => false

/-- The parameter-binding loop of `Apply::eval`: extend the closure's
captured environment with each parameter bound to its argument. -/
def extendParams : List String → List Value → Assoc → Assoc
  | p :: ps, v :: vs, env => extendParams ps vs (extend p v env)
  | _, _, env => env

/-- The type of the evaluator threaded through the loop helpers: the
one-fuel-level-less evaluator applied to subexpressions. -/
abbrev EvalFn := Expr → Assoc → Output → Except Err (Value × Assoc × Output)

/-- The operand loop of `Variadic::eval` and `Apply::eval`: evaluate each
operand left to right, collecting values. -/
def evalRands (ev : EvalFn) : List Expr → Assoc → Output →
    Except Err (List Value × Assoc × Output)
  | [], env, out => .ok ([], env, out)
  | e :: rest, env, out => do
    let (v, env1, out1) ← ev e env out
    let (vs, env2, out2) ← evalRands ev rest env1 out1
    .ok (v :: vs, env2, out2)

/-- The loop of `AndVar::eval` (evaluation.cpp): `result` starts as the
Boolean true; a Boolean-false operand value returns false at once. -/
def andLoop (ev : EvalFn) : List Expr → Assoc → Output → Value →
    Except Err (Value × Assoc × Output)
  | [], env, out, result => .ok (result, env, out)
  | e :: rest, env, out, _ => do
    let (v, env1, out1) ← ev e env out
    if isFalseValue v then .ok (.BooleanV false, env1, out1)
    else andLoop ev rest env1 out1 v

/-- The loop of `OrVar::eval` (evaluation.cpp): a Boolean-false operand
value continues; any other value returns at once (`empt` carries the
source's in-loop `rands.size() == 0` test, false whenever the loop body
runs). -/
def orLoop (ev : EvalFn) (empt : Bool) : List Expr → Assoc → Output →
    Except Err (Value × Assoc × Output)
  | [], env, out => .ok (.BooleanV false, env, out)
  | e :: rest, env, out => do
    let (v, env1, out1) ← ev e env out
    if isFalseValue v then orLoop ev empt rest env1 out1
    else if empt then .ok (.BooleanV false, env1, out1)
    else .ok (v, env1, out1)

/-- The sequencing loop of `Begin::eval`, also the clause-body loop of
`Cond::eval`: evaluate in order, keep the last value (`result` starts as
Void). -/
def beginLoop (ev : EvalFn) : List Expr → Assoc → Output → Value →
    Except Err (Value × Assoc × Output)
  | [], env, out, result => .ok (result, env, out)
  | e :: rest, env, out, _ => do
    let (v, env1, out1) ← ev e env out
    beginLoop ev rest env1 out1 v

/-- The clause loop of `Cond::eval` (evaluation.cpp): skip empty clauses;
the first clause whose test is true returns the test's own value when it
is alone, else the clause body's last value; no clause true gives Void. -/
def condLoop (ev : EvalFn) : List (List Expr) → Assoc → Output →
    Except Err (Value × Assoc × Output)
  | [], env, out => .ok (.VoidV, env, out)
  | clause :: rest, env, out =>
    match clause with
    | [] => condLoop ev rest env out
    | test :: body => do
      let (cv, env1, out1) ← ev test env out
      if isTrueValue cv then
        match body with
        | [] => .ok (cv, env1, out1)
        | _ => beginLoop ev body env1 out1 .VoidV
      else condLoop ev rest env1 out1

/-- The binding loop of `Let::eval` (evaluation.cpp): each binding's
expression is evaluated against the outer environment (threaded as
`env`), while `newEnv` accumulates the extensions on the environment the
`let` was entered with. -/
def letLoop (ev : EvalFn) : List (String × Expr) → Assoc → Assoc →
    Output → Except Err (Assoc × Assoc × Output)
  | [], env, newEnv, out => .ok (env, newEnv, out)
  | b :: rest, env, newEnv, out => do
    let (v, env1, out1) ← ev b.2 env out
    letLoop ev rest env1 (extend b.1 v newEnv) out1

/-- The patch loop of `Letrec::eval` (evaluation.cpp): evaluate each
binding's expression in the placeholder-extended environment and patch
the binding's cell in place via `modify`. -/
def letrecLoop (ev : EvalFn) : List (String × Expr) → Assoc → Output →
    Except Err (Assoc × Output)
  | [], env, out => .ok (env, out)
  | b :: rest, env, out => do
    let (v, env1, out1) ← ev b.2 env out
    match modify b.1 v env1 with
    | .ok env2 => letrecLoop ev rest env2 out1
    | .error msg => .error (.RE msg)

/-- One level of the evaluator: `Expr::eval` of each node class
(evaluation.cpp), with the environment reference threaded as explicit
state and display output as a trace; `ev` evaluates every
subexpression. -/
def evalStep (ev : EvalFn) (e : Expr) (env : Assoc) (out : Output) :
    Except Err (Value × Assoc × Output) :=
  match e with
  | .Fixnum m => .ok (.IntegerV m, env, out)
  | .RationalNum num den => .ok (.RationalV num den, env, out)
  | .StringExpr s => .ok (.StringV s, env, out)
  | .True => .ok (.BooleanV true, env, out)
  | .False => .ok (.BooleanV false, env, out)
  | .MakeVoid => .ok (.VoidV, env, out)
  | .Exit => .ok (.TerminateV, env, out)
  | .Unary op rand => do
    let (v, env1, out1) ← ev rand env out
    match op with
    | .Display =>
      match v with
      | .StringV s => .ok (.VoidV, env1, out1 ++ [s])
      | _ => .ok (.VoidV, env1, out1 ++ [showValue v])
    | _ =>
      match evalUnaryOp op v with
      | .ok r => .ok (r, env1, out1)
      | .error msg => .error (.RE msg)
  | .Binary op r1 r2 => do
    let (v1, env1, out1) ← ev r1 env out
    let (v2, env2, out2) ← ev r2 env1 out1
    match evalBinaryOp op v1 v2 with
    | .ok r => .ok (r, env2, out2)
    | .error msg => .error (.RE msg)
  | .Variadic op rands => do
    let (args, env1, out1) ← evalRands ev rands env out
    match evalVariadicOp op args with
    | .ok r => .ok (r, env1, out1)
    | .error msg => .error (.RE msg)
  | .AndVar rands => do
    let (r, env1, out1) ← andLoop ev rands env out (.BooleanV true)
    if rands.isEmpty then .ok (.BooleanV true, env1, out1)
    else .ok (r, env1, out1)
  | .OrVar rands => orLoop ev rands.isEmpty rands env out
  | .Var x =>
    match find x env with
    | some v => .ok (v, env, out)
    | none =>
      if (tableLookup x primitives).isSome then
        .error (.RE ("Primitive " ++ x ++ " used as variable without being called"))
      else .error (.RE ("Undefined variable: " ++ x))
  | .Apply rator rands => do
    let (rv, env1, out1) ← ev rator env out
    match rv with
    | .ProcedureV parameters body cenv => do
      let (args, env2, out2) ← evalRands ev rands env1 out1
      if args.length ≠ parameters.length then
        .error (.RE "Wrong number of arguments")
      else do
        let (v, _, out3) ← ev body (extendParams parameters args cenv) out2
        .ok (v, env2, out3)
    | _ => .error (.RE "Attempt to apply a non-procedure")
  | .Quote s => .ok (syntaxToValue s, env, out)
  | .If c t f => do
    let (cv, env1, out1) ← ev c env out
    if isTrueValue cv then ev t env1 out1 else ev f env1 out1
  | .Cond clauses => condLoop ev clauses env out
  | .Lambda xs body => .ok (.ProcedureV xs body env, env, out)
  | .Define x ex => do
    let (v, env1, out1) ← ev ex env out
    -- `Define::eval` hands the caller's environment reference to
    -- `extend`; modelled from the spec (section 4.2): `define` leaves the
    -- current environment extended with the new binding. Note the lambda
    -- value above was evaluated before the extension.
    .ok (.VoidV, extend x v env1, out1)
  | .Let bs body => do
    let (env1, newEnv, out1) ← letLoop ev bs env env out
    let (v, _, out2) ← ev body newEnv out1
    .ok (v, env1, out2)
  | .Letrec bs body => do
    let newEnv := bs.foldl (fun acc b => extend b.1 .NullV acc) env
    let (env1, out1) ← letrecLoop ev bs newEnv out
    let (v, _, out2) ← ev body env1 out1
    .ok (v, env, out2)
  | .Set x ex => do
    let (v, env1, out1) ← ev ex env out
    match modify x v env1 with
    | .ok env2 => .ok (.VoidV, env2, out1)
    | .error msg => .error (.RE msg)
  | .Begin es =>
    if es.isEmpty then .ok (.VoidV, env, out)
    else beginLoop ev es env out .VoidV

/-- The fuel-indexed evaluator: iterate `evalStep`, each fuel level
evaluating one expression node (subexpressions use the level below).
Fuel exhaustion is `OutOfFuel`, never a RuntimeError; the C++ evaluator
is the same recursion without the bound. -/
def eval : Nat → Expr → Assoc → Output → Except Err (Value × Assoc × Output) :=
  fun fuel =>
    Nat.rec (motive := fun _ => Expr → Assoc → Output →
        Except Err (Value × Assoc × Output))
      (fun _ _ _ => .error .OutOfFuel)
      (fun _ ih => evalStep ih)
      fuel

theorem eval_zero (e : Expr) (env : Assoc) (out : Output) :
    eval 0 e env out = .error .OutOfFuel := rfl

theorem eval_succ (fuel : Nat) : eval (fuel + 1) = evalStep (eval fuel) := rfl

/-- Whether a value carries the Integer or Rational runtime tag. -/
def isNumericValue : Value → Bool
  | .IntegerV _ => true
  | .RationalV _ _ => true
  | _ => false

/-- The rational number a numeric value denotes. -/
def ratValue : Value → Option ℚ
  | .IntegerV n => some (n : ℚ)
  | .RationalV num den => some ((num : ℚ) / (den : ℚ))
  | _ => none

theorem compareNumericValues_ok (v1 v2 : Value)
    (h1 : isNumericValue v1 = true) (h2 : isNumericValue v2 = true) :
    ∃ l r : Int,
      compareNumericValues v1 v2 =
        .ok (if l < r then -1 else if r < l then 1 else 0) := by
  cases v1 <;> cases v2 <;> simp_all [isNumericValue] <;> exact ⟨_, _, rfl⟩

/-- C9: parsing the empty list syntax never fails: it compiles to a
quotation of the empty list, and evaluating that quotation yields the
Null value, not an error. -/
theorem empty_list_parses_to_null (env : Assoc) (fuel : Nat) (out : Output) :
    parse (fuel + 1) (.List []) env = .ok (.Quote (.List [])) ∧
    eval (fuel + 1) (.Quote (.List [])) env out = .ok (.NullV, env, out) := by
  constructor
  · rfl
  · simp [eval_succ, evalStep, syntaxToValue, syntaxListToValue]

/-- C10: `number?` (the `IsFixnum` node) answers the Boolean true exactly
when the operand's runtime tag is Integer; in particular a Rational value
answers false. -/
theorem number_pred_integer_tag :
    (∀ v : Value,
      evalUnaryOp .IsFixnum v = .ok (.BooleanV true) ↔ ∃ n, v = .IntegerV n) ∧
    (∀ num den : Int,
      evalUnaryOp .IsFixnum (.RationalV num den) = .ok (.BooleanV false)) := by
  constructor
  · intro v
    constructor
    · intro h
      cases v <;> simp_all [evalUnaryOp]
    · rintro ⟨n, rfl⟩
      rfl
  · intro num den
    rfl

/-- C2 counterexample: the symbol "foo" is unbound in the empty
environment, is no primitive and no reserved word, yet
`List::parse` of `(foo)` succeeds with an application expression instead
of failing with a ParseError. -/
theorem unknown_head_counterexample :
    find "foo" ([] : Assoc) = none ∧
    tableLookup "foo" primitives = none ∧
    tableLookup "foo" reserved_words = none ∧
    parse 1 (.List [.SymbolSyntax "foo"]) [] = .ok (.Apply (.Var "foo") []) :=
  ⟨rfl, rfl, rfl, rfl⟩

/-- C2 amended: a list whose head is a bare symbol that is not bound in
the environment, not a primitive and not a reserved word parses (when its
operands parse) to the application `Apply (Var head)` of the parsed
operands; no "Unknown primitive/reserved word" ParseError is raised at
parse time for such a head. -/
theorem unknown_head_parses_as_apply (fuel : Nat) (op : String)
    (rest : List Syntax) (env : Assoc) (es : List Expr)
    (h1 : find op env = none)
    (h2 : tableLookup op primitives = none)
    (h3 : tableLookup op reserved_words = none)
    (h4 : parseList (parse fuel) rest env = .ok es) :
    parse (fuel + 1) (.List (.SymbolSyntax op :: rest)) env =
      .ok (.Apply (.Var op) es) := by
  simp [parse_succ, parseStep, listParse, h1, h2, h3, h4, bind, Except.bind]

/-- Witness for the amended C2 theorem at the concrete form `(foo 5)` in
the empty environment. -/
theorem unknown_head_parses_as_apply_witness :
    parse 2 (.List [.SymbolSyntax "foo", .Number 5]) [] =
      .ok (.Apply (.Var "foo") [.Fixnum 5]) :=
  unknown_head_parses_as_apply 1 "foo" [.Number 5] [] [.Fixnum 5]
    rfl rfl rfl rfl

/-- C3: for Integer operands with a nonzero divisor, `divideValues`
yields an Integer exactly when the truncated remainder is zero (and then
it is the exact quotient), otherwise a Rational equal in value to a/b; a
zero integer divisor or a zero-numerator rational divisor is a
RuntimeError; the `/` binary node dispatches to `divideValues`. -/
theorem div_integer_closure (a b : Int) (hb : b ≠ 0) :
    ((∃ n, divideValues (.IntegerV a) (.IntegerV b) = .ok (.IntegerV n)) ↔
      a.tmod b = 0) ∧
    (a.tmod b = 0 →
      divideValues (.IntegerV a) (.IntegerV b) = .ok (.IntegerV (a.tdiv b)) ∧
      a.tdiv b * b = a) ∧
    (a.tmod b ≠ 0 →
      divideValues (.IntegerV a) (.IntegerV b) = .ok (.RationalV a b)) ∧
    (∀ v, divideValues (.IntegerV a) (.IntegerV b) = .ok v →
      ratValue v = some ((a : ℚ) / (b : ℚ))) ∧
    evalBinaryOp .Div (.IntegerV a) (.IntegerV b) =
      divideValues (.IntegerV a) (.IntegerV b) ∧
    divideValues (.IntegerV a) (.IntegerV 0) = .error "Division by zero" ∧
    (∀ num den : Int,
      divideValues (.RationalV num den) (.IntegerV 0) = .error "Division by zero") ∧
    (∀ den : Int,
      divideValues (.IntegerV a) (.RationalV 0 den) = .error "Division by zero") ∧
    (∀ num1 den1 den2 : Int,
      divideValues (.RationalV num1 den1) (.RationalV 0 den2) =
        .error "Division by zero") := by
  have hbQ : (b : ℚ) ≠ 0 := Int.cast_ne_zero.mpr hb
  have hdiv : divideValues (.IntegerV a) (.IntegerV b) =
      if a.tmod b = 0 then .ok (.IntegerV (a.tdiv b)) else .ok (.RationalV a b) := by
    simp [divideValues, hb]
  have hexact : a.tmod b = 0 → a.tdiv b * b = a := by
    intro hm
    have h := Int.tdiv_add_tmod a b
    rw [hm, add_zero] at h
    linarith
  refine ⟨?_, ?_, ?_, ?_, rfl, by simp [divideValues], ?_, ?_, ?_⟩
  · constructor
    · rintro ⟨n, hn⟩
      by_cases hm : a.tmod b = 0
      · exact hm
      · rw [hdiv, if_neg hm] at hn
        exact absurd hn (by simp)
    · intro hm
      exact ⟨a.tdiv b, by rw [hdiv, if_pos hm]⟩
  · intro hm
    exact ⟨by rw [hdiv, if_pos hm], hexact hm⟩
  · intro hm
    rw [hdiv, if_neg hm]
  · intro v hv
    rw [hdiv] at hv
    by_cases hm : a.tmod b = 0
    · rw [if_pos hm] at hv
      obtain rfl : Value.IntegerV (a.tdiv b) = v := by
        simpa using hv
      have hq : ((a.tdiv b : Int) : ℚ) * (b : ℚ) = (a : ℚ) := by
        exact_mod_cast congrArg (fun z : Int => (z : ℚ)) (hexact hm)
      simp only [ratValue, Option.some.injEq]
      rw [eq_div_iff hbQ]
      exact hq
    · rw [if_neg hm] at hv
      obtain rfl : Value.RationalV a b = v := by
        simpa using hv
      rfl
  · intro num den
    simp [divideValues]
  · intro den
    simp [divideValues]
  · intro num1 den1 den2
    simp [divideValues]

/-- Witness for C3 at a = 7, b = 2: the remainder is nonzero so the value
is the Rational 7/2. -/
theorem div_integer_closure_witness :
    divideValues (.IntegerV 7) (.IntegerV 2) = .ok (.RationalV 7 2) :=
  (div_integer_closure 7 2 (by decide)).2.2.1 (by decide)

/-- C4: for any two numeric values, exactly one of the binary `<`, `=`,
`>` nodes evaluates to the Boolean true. -/
theorem comparison_trichotomy (v1 v2 : Value)
    (h1 : isNumericValue v1 = true) (h2 : isNumericValue v2 = true) :
    ∃ b1 b2 b3 : Bool,
      evalBinaryOp .Less v1 v2 = .ok (.BooleanV b1) ∧
      evalBinaryOp .Equal v1 v2 = .ok (.BooleanV b2) ∧
      evalBinaryOp .Greater v1 v2 = .ok (.BooleanV b3) ∧
      ((b1 = true ∧ b2 = false ∧ b3 = false) ∨
       (b1 = false ∧ b2 = true ∧ b3 = false) ∨
       (b1 = false ∧ b2 = false ∧ b3 = true)) := by
  obtain ⟨l, r, hcmp⟩ := compareNumericValues_ok v1 v2 h1 h2
  rcases lt_trichotomy l r with h | h | h
  · have hn : ¬ r < l := by omega
    refine ⟨true, false, false, ?_, ?_, ?_, Or.inl ⟨rfl, rfl, rfl⟩⟩ <;>
      simp [evalBinaryOp, hcmp, Except.map, h, hn]
  · have hn1 : ¬ l < r := by omega
    have hn2 : ¬ r < l := by omega
    refine ⟨false, true, false, ?_, ?_, ?_, Or.inr (Or.inl ⟨rfl, rfl, rfl⟩)⟩ <;>
      simp [evalBinaryOp, hcmp, Except.map, hn1, hn2]
  · have hn : ¬ l < r := by omega
    refine ⟨false, false, true, ?_, ?_, ?_, Or.inr (Or.inr ⟨rfl, rfl, rfl⟩)⟩ <;>
      simp [evalBinaryOp, hcmp, Except.map, h, hn]

/-- Witness for C4 at the mixed pair 1 and 1/2. -/
theorem comparison_trichotomy_witness :
    ∃ b1 b2 b3 : Bool,
      evalBinaryOp .Less (.IntegerV 1) (.RationalV 1 2) = .ok (.BooleanV b1) ∧
      evalBinaryOp .Equal (.IntegerV 1) (.RationalV 1 2) = .ok (.BooleanV b2) ∧
      evalBinaryOp .Greater (.IntegerV 1) (.RationalV 1 2) = .ok (.BooleanV b3) ∧
      ((b1 = true ∧ b2 = false ∧ b3 = false) ∨
       (b1 = false ∧ b2 = true ∧ b3 = false) ∨
       (b1 = false ∧ b2 = false ∧ b3 = true)) :=
  comparison_trichotomy (.IntegerV 1) (.RationalV 1 2) rfl rfl

/-- Follows the spec's words for `and` (section 4.2): evaluate operands
strictly left to right; return the Boolean false immediately on the first
operand whose value is the Boolean false, never reaching a later operand;
otherwise return the last operand's value, or the Boolean true for zero
operands. -/
def andSpec (ev : EvalFn) : List Expr → Assoc → Output →
    Except Err (Value × Assoc × Output)
  | [], env, out => .ok (.BooleanV true, env, out)
  | e :: rest, env, out => do
    let (v, env1, out1) ← ev e env out
    if isFalseValue v then .ok (.BooleanV false, env1, out1)
    else if rest.isEmpty then .ok (v, env1, out1)
    else andSpec ev rest env1 out1

/-- Follows the spec's words for `or` (section 4.2): evaluate operands
strictly left to right; return the first operand value that is not the
Boolean false immediately, never reaching a later operand; return the
Boolean false when all operands were false or there were zero
operands. -/
def orSpec (ev : EvalFn) : List Expr → Assoc → Output →
    Except Err (Value × Assoc × Output)
  | [], env, out => .ok (.BooleanV false, env, out)
  | e :: rest, env, out => do
    let (v, env1, out1) ← ev e env out
    if isFalseValue v then orSpec ev rest env1 out1
    else .ok (v, env1, out1)

theorem andLoop_eq_andSpec (ev : EvalFn) (e : Expr) (rest : List Expr)
    (env : Assoc) (out : Output) (v0 : Value) :
    andLoop ev (e :: rest) env out v0 = andSpec ev (e :: rest) env out := by
  induction rest generalizing e env out v0 with
  | nil =>
    have hL : andLoop ev [e] env out v0 = (do
        let (v, env1, out1) ← ev e env out
        if isFalseValue v then .ok (.BooleanV false, env1, out1)
        else andLoop ev [] env1 out1 v) := rfl
    have hR : andSpec ev [e] env out = (do
        let (v, env1, out1) ← ev e env out
        if isFalseValue v then .ok (.BooleanV false, env1, out1)
        else if ([] : List Expr).isEmpty then .ok (v, env1, out1)
        else andSpec ev [] env1 out1) := rfl
    rw [hL, hR]
    cases hev : ev e env out with
    | error err => simp [bind, Except.bind, hev]
    | ok t =>
      obtain ⟨v, env1, out1⟩ := t
      by_cases hf : isFalseValue v <;>
        simp [bind, Except.bind, hev, hf, andLoop, List.isEmpty]
  | cons r rs ih =>
    have hL : andLoop ev (e :: r :: rs) env out v0 = (do
        let (v, env1, out1) ← ev e env out
        if isFalseValue v then .ok (.BooleanV false, env1, out1)
        else andLoop ev (r :: rs) env1 out1 v) := rfl
    have hR : andSpec ev (e :: r :: rs) env out = (do
        let (v, env1, out1) ← ev e env out
        if isFalseValue v then .ok (.BooleanV false, env1, out1)
        else if (r :: rs).isEmpty then .ok (v, env1, out1)
        else andSpec ev (r :: rs) env1 out1) := rfl
    rw [hL, hR]
    cases hev : ev e env out with
    | error err => simp [bind, Except.bind, hev]
    | ok t =>
      obtain ⟨v, env1, out1⟩ := t
      by_cases hf : isFalseValue v
      · simp [bind, Except.bind, hev, hf]
      · simp only [bind, Except.bind, hev, hf, if_false, List.isEmpty,
          Bool.false_eq_true]
        exact ih r env1 out1 v

theorem orLoop_eq_orSpec (ev : EvalFn) (rands : List Expr) (env : Assoc)
    (out : Output) :
    orLoop ev false rands env out = orSpec ev rands env out := by
  induction rands generalizing env out with
  | nil => rfl
  | cons e rest ih =>
    simp only [orLoop, orSpec]
    cases hev : ev e env out with
    | error err => simp [bind, Except.bind, hev]
    | ok t =>
      obtain ⟨v, env1, out1⟩ := t
      by_cases hf : isFalseValue v <;>
        simp [bind, Except.bind, hev, hf, ih]

/-- C5: the evaluation of the `and` and `or` forms equals the spec-side
short-circuit functions: `and` returns the Boolean false at the first
false-valued operand without evaluating (or performing the output effects
of) any later operand, else the last operand's value, or true for zero
operands; `or` returns the first non-false operand value immediately,
else false. The equality covers the threaded environment and the display
output trace, so unevaluated operands contribute no effects. -/
theorem and_or_short_circuit (fuel : Nat) (rands : List Expr) (env : Assoc)
    (out : Output) :
    eval (fuel + 1) (.AndVar rands) env out =
      andSpec (eval fuel) rands env out ∧
    eval (fuel + 1) (.OrVar rands) env out =
      orSpec (eval fuel) rands env out := by
  rw [eval_succ]
  constructor
  · cases rands with
    | nil => simp [evalStep, andLoop, andSpec, bind, Except.bind]
    | cons e rest =>
      have heq : evalStep (eval fuel) (.AndVar (e :: rest)) env out =
          andLoop (eval fuel) (e :: rest) env out (.BooleanV true) := by
        cases hl : andLoop (eval fuel) (e :: rest) env out (.BooleanV true) with
        | error err => simp [evalStep, hl, bind, Except.bind]
        | ok t =>
          obtain ⟨v, env1, out1⟩ := t
          simp [evalStep, hl, bind, Except.bind, List.isEmpty]
      rw [heq, andLoop_eq_andSpec]
  · cases rands with
    | nil => simp [evalStep, orLoop, orSpec]
    | cons e rest =>
      have heq : evalStep (eval fuel) (.OrVar (e :: rest)) env out =
          orLoop (eval fuel) false (e :: rest) env out := by
        simp [evalStep, List.isEmpty]
      rw [heq, orLoop_eq_orSpec]

/-- The spec-side left-to-right evaluation of a `let`'s binding
expressions against the outer environment (threaded as state), collecting
the binding values; none of the `let`'s own names is introduced here. -/
def bindingVals (ev : EvalFn) : List (String × Expr) → Assoc → Output →
    Except Err (List Value × Assoc × Output)
  | [], env, out => .ok ([], env, out)
  | b :: rest, env, out => do
    let (v, env1, out1) ← ev b.2 env out
    let (vs, env2, out2) ← bindingVals ev rest env1 out1
    .ok (v :: vs, env2, out2)

/-- Follows the spec's words for `let` (section 4.2): every binding's
expression is evaluated against the outer environment — no x1..xn of this
`let` is visible to any of them — and the body is then evaluated in one
new layer holding all n bindings over the environment the `let` was
entered with. -/
def letSpec (ev : EvalFn) (bs : List (String × Expr)) (body : Expr)
    (env : Assoc) (out : Output) : Except Err (Value × Assoc × Output) := do
  let (vals, env1, out1) ← bindingVals ev bs env out
  let newEnv := ((bs.map Prod.fst).zip vals).foldl
    (fun acc p => extend p.1 p.2 acc) env
  let (v, _, out2) ← ev body newEnv out1
  .ok (v, env1, out2)

theorem letLoop_eq_bindingVals (ev : EvalFn) (bs : List (String × Expr))
    (env acc : Assoc) (out : Output) :
    letLoop ev bs env acc out =
      match bindingVals ev bs env out with
      | .error err => .error err
      | .ok (vals, env2, out2) =>
        .ok (env2,
          ((bs.map Prod.fst).zip vals).foldl (fun a p => extend p.1 p.2 a) acc,
          out2) := by
  induction bs generalizing env acc out with
  | nil => simp [letLoop, bindingVals]
  | cons b rest ih =>
    simp only [letLoop, bindingVals]
    cases hev : ev b.2 env out with
    | error err => simp [bind, Except.bind, hev]
    | ok t =>
      obtain ⟨v, env1, out1⟩ := t
      simp only [bind, Except.bind, hev]
      rw [ih]
      cases hbv : bindingVals ev rest env1 out1 with
      | error err => simp
      | ok t2 =>
        obtain ⟨vals, env2, out2⟩ := t2
        simp

/-- C6: evaluating `(let ((x1 e1) ... (xn en)) body)` equals the
spec-side `letSpec`: each binding expression is evaluated against the
outer environment (so none can see any x1..xn this `let` introduces), and
the body is evaluated in the environment extended with all n bindings. -/
theorem let_bindings_outer_env (fuel : Nat) (bs : List (String × Expr))
    (body : Expr) (env : Assoc) (out : Output) :
    eval (fuel + 1) (.Let bs body) env out =
      letSpec (eval fuel) bs body env out := by
  rw [eval_succ]
  have heval : evalStep (eval fuel) (.Let bs body) env out =
      (do
        let (env1, newEnv, out1) ← letLoop (eval fuel) bs env env out
        let (v, _, out2) ← eval fuel body newEnv out1
        (.ok (v, env1, out2) : Except Err (Value × Assoc × Output))) := by
    simp [evalStep]
  rw [heval, letLoop_eq_bindingVals]
  unfold letSpec
  cases hbv : bindingVals (eval fuel) bs env out with
  | error err => simp [bind, Except.bind]
  | ok t =>
    obtain ⟨vals, env2, out2⟩ := t
    simp [bind, Except.bind]

/-- C7: evaluating a quotation never touches the environment or output
and converts the syntax payload structurally: each literal becomes the
corresponding literal value, a symbol becomes a Symbol value (not looked
up), a list becomes the Null-terminated chain of pairs of its converted
elements. -/
theorem quote_structural (fuel : Nat) (env : Assoc) (out : Output) :
    (∀ s : Syntax,
      eval (fuel + 1) (.Quote s) env out = .ok (syntaxToValue s, env, out)) ∧
    (∀ n : Int, syntaxToValue (.Number n) = .IntegerV n) ∧
    (∀ num den : Int,
      syntaxToValue (.RationalSyntax num den) = .RationalV num den) ∧
    (∀ str, syntaxToValue (.StringSyntax str) = .StringV str) ∧
    (∀ sym, syntaxToValue (.SymbolSyntax sym) = .SymbolV sym) ∧
    syntaxToValue .TrueSyntax = .BooleanV true ∧
    syntaxToValue .FalseSyntax = .BooleanV false ∧
    syntaxToValue (.List []) = .NullV ∧
    (∀ s rest, syntaxToValue (.List (s :: rest)) =
      .PairV (syntaxToValue s) (syntaxToValue (.List rest))) := by
  refine ⟨?_, ?_, ?_, ?_, ?_, ?_, ?_, ?_, ?_⟩ <;>
    intros <;> simp [eval_succ, evalStep, syntaxToValue, syntaxListToValue]

theorem int_sq_ne_two_pow31 (b : Int) : b * b ≠ 2147483648 := by
  intro h
  have h1 : (b - 46341) * (b + 46341) < 0 := by nlinarith
  have h2 : (b - 46340) * (b + 46340) > 0 := by nlinarith
  have hb1 : -46341 < b ∧ b < 46341 := by constructor <;> nlinarith
  have hb2 : b < -46340 ∨ 46340 < b := by
    by_contra hc
    push_neg at hc
    nlinarith [hc.1, hc.2]
  omega

theorem one_le_mul_self {b : Int} (hb : b ≠ 0) : 1 ≤ b * b := by
  have h := mul_self_pos.mpr hb
  omega

/-- The square-and-multiply loop computes exactly `res * b ^ e` when that
fits the machine-int range, and reports overflow exactly otherwise, for
any in-range `res` with `res ≠ 0` unless `b = 0`. -/
theorem exptLoop_spec (e : Nat) : ∀ res b : Int,
    (res ≠ 0 ∨ b = 0) → INT_MIN ≤ res → res ≤ INT_MAX →
    exptLoop res b e =
      if INT_MIN ≤ res * b ^ e ∧ res * b ^ e ≤ INT_MAX
      then .ok (res * b ^ e)
      else .error "Integer overflow in expt" := by
  induction e using Nat.strong_induction_on with
  | _ e ih =>
    intro res b hnz hlo hhi
    rcases Nat.eq_zero_or_pos e with he0 | hpos
    · subst he0
      rw [exptLoop]
      simp [pow_zero, mul_one, hlo, hhi]
    · have hk : e / 2 < e := Nat.div_lt_self hpos (by omega)
      rw [exptLoop, if_pos hpos]
      by_cases hodd : e % 2 = 1
      · -- odd exponent: the result accumulator is multiplied by b
        have he2 : e = 2 * (e / 2) + 1 := by omega
        have hpowe : b ^ e = (b * b) ^ (e / 2) * b := by
          conv_lhs => rw [he2]
          rw [pow_succ, pow_mul, pow_two]
        have hkey : res * b ^ e = res * b * (b * b) ^ (e / 2) := by
          rw [hpowe]; ring
        simp only [hodd, if_true, true_and]
        by_cases hov : INT_MAX < res * b ∨ res * b < INT_MIN
        · rw [if_pos hov]
          have hb0 : b ≠ 0 := by
            rintro rfl
            rw [mul_zero] at hov
            rcases hov with h | h <;> simp [INT_MAX, INT_MIN] at h
          have hpow1 : (1 : Int) ≤ (b * b) ^ (e / 2) :=
            one_le_pow₀ (one_le_mul_self hb0)
          have hpow0 : (0 : Int) ≤ (b * b) ^ (e / 2) := by omega
          have hnfits : ¬(INT_MIN ≤ res * b ^ e ∧ res * b ^ e ≤ INT_MAX) := by
            rintro ⟨h1, h2⟩
            rw [hkey] at h1 h2
            rcases hov with hov | hov
            · have hpos' : (0 : Int) ≤ res * b := by
                simp only [INT_MAX] at hov; omega
              have hch : res * b ≤ res * b * (b * b) ^ (e / 2) :=
                le_mul_of_one_le_right hpos' hpow1
              simp only [INT_MAX] at hov h2
              omega
            · have hneg' : res * b ≤ 0 := by
                simp only [INT_MIN] at hov; omega
              have hch : res * b * (b * b) ^ (e / 2) ≤ res * b * 1 :=
                mul_le_mul_of_nonpos_left hpow1 hneg'
              rw [mul_one] at hch
              simp only [INT_MIN] at hov h1
              omega
          rw [if_neg hnfits]
        · rw [if_neg hov]
          push_neg at hov
          by_cases hbv : (INT_MAX < b * b ∨ b * b < INT_MIN) ∧ 1 < e
          · rw [if_pos hbv]
            obtain ⟨hbov, he1⟩ := hbv
            have hbb : INT_MAX < b * b := by
              rcases hbov with h | h
              · exact h
              · exfalso
                have hsq := mul_self_nonneg b
                simp only [INT_MIN] at h
                omega
            have hb0 : b ≠ 0 := by
              rintro rfl
              rw [mul_zero] at hbb
              simp [INT_MAX] at hbb
            have hres0 : res ≠ 0 := hnz.resolve_right hb0
            have hres'0 : res * b ≠ 0 := mul_ne_zero hres0 hb0
            have hk1 : e / 2 ≠ 0 := by omega
            have hbb1 : (2147483649 : Int) ≤ b * b := by
              have hne := int_sq_ne_two_pow31 b
              simp only [INT_MAX] at hbb
              omega
            have hpk : (2147483649 : Int) ≤ (b * b) ^ (e / 2) :=
              le_trans hbb1 (le_self_pow₀ (by omega) hk1)
            have hpow0 : (0 : Int) ≤ (b * b) ^ (e / 2) := by omega
            have hnfits : ¬(INT_MIN ≤ res * b ^ e ∧ res * b ^ e ≤ INT_MAX) := by
              rintro ⟨h1, h2⟩
              rw [hkey] at h1 h2
              rcases lt_trichotomy (res * b) 0 with hneg | hz | hposv
              · have hle : res * b ≤ -1 := by omega
                have hch : res * b * (b * b) ^ (e / 2) ≤ -1 * (b * b) ^ (e / 2) :=
                  mul_le_mul_of_nonneg_right hle hpow0
                simp only [INT_MIN] at h1
                omega
              · exact hres'0 hz
              · have hge : (1 : Int) ≤ res * b := by omega
                have hch : 1 * (b * b) ^ (e / 2) ≤ res * b * (b * b) ^ (e / 2) :=
                  mul_le_mul_of_nonneg_right hge hpow0
                rw [one_mul] at hch
                simp only [INT_MAX] at h2
                omega
            rw [if_neg hnfits]
          · rw [if_neg hbv]
            have hinv : res * b ≠ 0 ∨ b * b = 0 := by
              rcases hnz with hres0 | hb0
              · by_cases hb : b = 0
                · right; rw [hb, mul_zero]
                · left; exact mul_ne_zero hres0 hb
              · right; rw [hb0, mul_zero]
            rw [ih (e / 2) hk (res * b) (b * b) hinv hov.2 hov.1]
            rw [show res * b * (b * b) ^ (e / 2) = res * b ^ e from by
              rw [hpowe]; ring]
      · -- even exponent: only the base is squared
        have hodd0 : e % 2 = 0 := by omega
        have he2 : e = 2 * (e / 2) := by omega
        have he1 : 1 < e := by omega
        have hk1 : e / 2 ≠ 0 := by omega
        have hpowe : b ^ e = (b * b) ^ (e / 2) := by
          conv_lhs => rw [he2]
          rw [pow_mul, pow_two]
        simp only [hodd, if_false, false_and]
        by_cases hbv : (INT_MAX < b * b ∨ b * b < INT_MIN) ∧ 1 < e
        · rw [if_pos hbv]
          obtain ⟨hbov, _⟩ := hbv
          have hbb : INT_MAX < b * b := by
            rcases hbov with h | h
            · exact h
            · exfalso
              have hsq := mul_self_nonneg b
              simp only [INT_MIN] at h
              omega
          have hb0 : b ≠ 0 := by
            rintro rfl
            rw [mul_zero] at hbb
            simp [INT_MAX] at hbb
          have hres0 : res ≠ 0 := hnz.resolve_right hb0
          have hbb1 : (2147483649 : Int) ≤ b * b := by
            have hne := int_sq_ne_two_pow31 b
            simp only [INT_MAX] at hbb
            omega
          have hpk : (2147483649 : Int) ≤ (b * b) ^ (e / 2) :=
            le_trans hbb1 (le_self_pow₀ (by omega) hk1)
          have hpow0 : (0 : Int) ≤ (b * b) ^ (e / 2) := by omega
          have hnfits : ¬(INT_MIN ≤ res * b ^ e ∧ res * b ^ e ≤ INT_MAX) := by
            rintro ⟨h1, h2⟩
            rw [hpowe] at h1 h2
            rcases lt_trichotomy res 0 with hneg | hz | hposv
            · have hle : res ≤ -1 := by omega
              have hch : res * (b * b) ^ (e / 2) ≤ -1 * (b * b) ^ (e / 2) :=
                mul_le_mul_of_nonneg_right hle hpow0
              simp only [INT_MIN] at h1
              omega
            · exact hres0 hz
            · have hge : (1 : Int) ≤ res := by omega
              have hch : 1 * (b * b) ^ (e / 2) ≤ res * (b * b) ^ (e / 2) :=
                mul_le_mul_of_nonneg_right hge hpow0
              rw [one_mul] at hch
              simp only [INT_MAX] at h2
              omega
          rw [if_neg hnfits]
        · rw [if_neg hbv]
          have hinv : res ≠ 0 ∨ b * b = 0 := by
            rcases hnz with hres0 | hb0
            · left; exact hres0
            · right; rw [hb0, mul_zero]
          rw [ih (e / 2) hk res (b * b) hinv hlo hhi, hpowe]

/-- C8: for Integer base and exponent, `expt` raises a RuntimeError on a
negative exponent, on 0^0, and exactly when the mathematical power does
not fit the machine-int range (the widened accumulator detects overflow
and reports, never wraps); otherwise it returns the Integer
base^exponent. Non-Integer operands always raise a RuntimeError. -/
theorem expt_integer_overflow_spec :
    (∀ base expo : Int,
      (expo < 0 → evalBinaryOp .Expt (.IntegerV base) (.IntegerV expo) =
        .error "Negative exponent not supported for integers") ∧
      (base = 0 → expo = 0 →
        evalBinaryOp .Expt (.IntegerV base) (.IntegerV expo) =
          .error "0^0 is undefined") ∧
      (0 ≤ expo → ¬(base = 0 ∧ expo = 0) →
        evalBinaryOp .Expt (.IntegerV base) (.IntegerV expo) =
          if INT_MIN ≤ base ^ expo.toNat ∧ base ^ expo.toNat ≤ INT_MAX
          then .ok (.IntegerV (base ^ expo.toNat))
          else .error "Integer overflow in expt")) ∧
    (∀ v1 v2 : Value,
      (∀ n1 n2 : Int, ¬(v1 = .IntegerV n1 ∧ v2 = .IntegerV n2)) →
      evalBinaryOp .Expt v1 v2 = .error "Wrong typename") := by
  constructor
  · intro base expo
    refine ⟨?_, ?_, ?_⟩
    · intro h
      simp [evalBinaryOp, h]
    · rintro rfl rfl
      simp [evalBinaryOp]
    · intro h0 hne
      have hlt : ¬ expo < 0 := not_lt.2 h0
      simp only [evalBinaryOp, hlt, if_false, hne]
      rw [exptLoop_spec expo.toNat 1 base (Or.inl one_ne_zero)
        (by norm_num [INT_MIN]) (by norm_num [INT_MAX])]
      simp only [one_mul]
      by_cases hf : INT_MIN ≤ base ^ expo.toNat ∧ base ^ expo.toNat ≤ INT_MAX
      · rw [if_pos hf, if_pos hf]
        rfl
      · rw [if_neg hf, if_neg hf]
        rfl
  · intro v1 v2 h
    cases v1 <;> cases v2 <;>
      first
        | rfl
        | exact absurd ⟨rfl, rfl⟩ (h _ _)

/-- Witness for C8 at base 2, exponent 10: within range, so the value is
the Integer 1024. -/
theorem expt_integer_overflow_spec_witness :
    evalBinaryOp .Expt (.IntegerV 2) (.IntegerV 10) = .ok (.IntegerV 1024) := by
  have h := (expt_integer_overflow_spec.1 2 10).2.2 (by norm_num)
    (by simp)
  rw [h, if_pos (by decide)]
  have hv : (2 : Int) ^ (10 : Int).toNat = 1024 := by decide
  rw [hv]

/-- The two-form program of the C1 claim, as the reader delivers it:
`(define (fact n) (if (= n 0) 1 (* n (fact (- n 1)))))`. -/
def factDefSyn : Syntax :=
  .List [.SymbolSyntax "define", .List [.SymbolSyntax "fact", .SymbolSyntax "n"],
    .List [.SymbolSyntax "if",
      .List [.SymbolSyntax "=", .SymbolSyntax "n", .Number 0],
      .Number 1,
      .List [.SymbolSyntax "*", .SymbolSyntax "n",
        .List [.SymbolSyntax "fact",
          .List [.SymbolSyntax "-", .SymbolSyntax "n", .Number 1]]]]]

/-- The second top-level form of the C1 claim: `(fact 5)`. -/
def factCallSyn : Syntax := .List [.SymbolSyntax "fact", .Number 5]

/-- The body expression the parser produces for `fact`. -/
def factBodyExpr : Expr :=
  .If (.Binary .Equal (.Var "n") (.Fixnum 0)) (.Fixnum 1)
    (.Binary .Mult (.Var "n")
      (.Apply (.Var "fact") [.Binary .Minus (.Var "n") (.Fixnum 1)]))

/-- The global environment after the define: the Procedure value captured
the environment as it was before the extension, namely the empty one. -/
def factEnv : Assoc := [("fact", .ProcedureV ["n"] factBodyExpr [])]

/-- C1 (code bug): running the spec's own end-to-end example — the two
top-level forms `(define (fact n) ...)` then `(fact 5)` from the empty
global environment — does not produce 120. `Define::eval` evaluates the
lambda before extending the environment, so the Procedure's captured
chain has no binding for "fact", and the recursive application raises
the RuntimeError "Undefined variable: fact". -/
theorem fact_define_then_call_raises :
    parse 100 factDefSyn [] =
      .ok (.Define "fact" (.Lambda ["n"] factBodyExpr)) ∧
    eval 100 (.Define "fact" (.Lambda ["n"] factBodyExpr)) [] [] =
      .ok (.VoidV, factEnv, []) ∧
    parse 100 factCallSyn factEnv = .ok (.Apply (.Var "fact") [.Fixnum 5]) ∧
    eval 100 (.Apply (.Var "fact") [.Fixnum 5]) factEnv [] =
      .error (.RE "Undefined variable: fact") :=
  ⟨rfl, rfl, rfl, rfl⟩

end Scheme
